import Mathlib

/-!
Verification development for the `rpn` calculator (`main.go`).

This file gives a shallow embedding of the tokenizer/classifier (`getBase`,
`Parse`) and the stack-machine evaluator (`Eval`) of the Go source, and
proves/refutes the frozen behavioural claims against it.

Modelling conventions:
* `big.Float` values are modelled as rationals (`ℚ`).  Every `*big.Float`
  this program creates has precision 53 (`big.NewFloat` calls `SetFloat64`,
  which sets precision 53, and `SetInt`/`Parse`/`Add`/... keep the
  receiver's precision) and rounding mode ToNearestEven, so every
  arithmetic result and every parsed literal is rounded by `round53` —
  round-to-nearest-even at 53 significant bits.  `big.Float`'s exponent
  (int32 range) is treated as unbounded.  The IEEE special values
  (±Inf, NaN) are outside the rational model: division with a zero divisor
  produces a non-rational (`Quo` panics on 0/0 and yields ±Inf otherwise)
  and is modelled as a fault, and tokens denoting IEEE infinities are
  modelled as parse failures.
* Transcendental operators narrow to `float64` in the source; their results
  are dyadic rationals produced by opaque library routines.  They are
  modelled by a parameter structure `Approx` of functions `ℚ → ℚ`; no
  theorem below depends on its fields.
* A nil `*big.Float` (the zero `Var`) is `none`; calling a method on it
  panics in Go and is a fault here.
* Go maps are modelled as association lists with overwrite-on-insert; the
  values of the `keyWords` map ("x"/"c"/"m"/"a") are never read by the
  source (only key membership is tested), so the registry is a key list.
* Go slice expressions are modelled by `take`/`drop` with the exact bounds
  checks of the runtime (out of range ⇒ fault).  The handful of spots where
  the source appends overlapping sub-slices of one backing array
  (`repeat`/`dupn` with count ≥ 4 and trailing cells, macro splices) have a
  capacity-dependent, unspecifiable result in Go; the pure functional
  reading used here is what the source computes whenever no clobbering
  occurs, which covers every configuration any theorem below touches.
* The session display/debug/exit globals (`Mode`, `Vertical`, `debug`,
  `Exit`) only affect rendering and the read loop, never the stack, the
  variable table or the cursor; they are not part of the state.  The stack
  and index effects of the operators that set them are modelled exactly.
* Go strings are byte sequences; tokens in all claims are ASCII, and the
  embedding works with character lists (identical on ASCII).
-/

/-- The `Type` tag of a stack cell (`type Type int` in the source). -/
inductive VTy
  | Number
  | Variable
  | String
  | Assignment
  | Code
deriving DecidableEq

/-- A stack cell: `type Var struct` of the source.  `f` is the `*big.Float`
(`none` = nil pointer), `b` the `[]byte` payload, `code` the captured body. -/
structure Var where
  ty : VTy
  v : String
  f : Option ℚ
  b : List Nat
  code : List Var

/-- The zero value of `Var` (what a missing Go map lookup returns). -/
def zeroVar : Var := ⟨.Number, "", none, [], []⟩

/-- A `Number` cell as produced by `Parse` (V empty). -/
def numLit (q : ℚ) : Var := ⟨.Number, "", some q, [], []⟩

/-- A `Number` cell produced by an operator: the operator cell keeps its
name in `V` (the source only flips `Type` and overwrites `F`). -/
def opNum (nm : String) (q : ℚ) : Var := ⟨.Number, nm, some q, [], []⟩

/-- A classified keyword cell (`Var{Type: Code, V: s, F: Zero}`). -/
def codeCell (nm : String) : Var := ⟨.Code, nm, some 0, [], []⟩

/-- A classified variable-reference cell (`Var{Type: Variable, V: s, F: Zero}`). -/
def varCell (nm : String) : Var := ⟨.Variable, nm, some 0, [], []⟩

/-- An assignment-marker cell (`Var{Type: Assignment, V: s, F: Zero}`). -/
def assignCell (nm : String) : Var := ⟨.Assignment, nm, some 0, [], []⟩

/-- Variable table: `map[string]Var` as an association list. -/
abbrev VMap := List (String × Var)

/-- Go map read (one-value form returns the zero value; we expose the
two-value form as an `Option`). -/
def vlookup (m : VMap) (k : String) : Option Var :=
  match m with
  | [] => none
  | (k2, x) :: t => if k2 = k then some x else vlookup t k

/-- Go map write: overwrite an existing key, otherwise add it. -/
def vinsert (m : VMap) (k : String) (x : Var) : VMap :=
  match m with
  | [] => [(k, x)]
  | (k2, y) :: t => if k2 = k then (k2, x) :: t else (k2, y) :: vinsert t k x

/-- Keyword-registry write `keyWords[name] = "x"`: only key membership is
ever read, so this is insert-if-absent on the key list. -/
def kwInsert (kws : List String) (k : String) : List String :=
  if k ∈ kws then kws else kws ++ [k]

/-- The keys of the initial `keyWords` map, in source order. -/
def baseKW : List String :=
  ["+", "-", "*", "/", "cla", "clr", "clv", "!", "%", "++", "--",
   "&", "|", "^", "~", "<<", ">>",
   "&&", "||", "^^",
   "!=", "<", "<=", "==", ">", ">=",
   "acos", "asin", "atan", "cos", "cosh", "sin", "sinh", "tanh",
   "ceil", "floor", "round", "ip", "fp", "sign", "abs", "max", "min",
   "hex", "dec", "bin", "oct",
   "e", "pi", "rand",
   "exp", "fact", "sqrt", "ln", "log", "pow",
   "hnl", "hns", "nhl", "nhs",
   "pick", "repeat", "depth", "drop", "dropn", "dup", "dupn",
   "roll", "rolld", "stack", "swap",
   "macro", "=",
   "help", "exit", "debug"]

/-- Truncation of a rational toward zero (`big.Float.Int`). -/
def truncQ (q : ℚ) : Int :=
  if q.num < 0 then -(((-q.num).toNat / q.den : Nat) : Int)
  else ((q.num.toNat / q.den : Nat) : Int)

/-- `big.Float.Int64`: truncate toward zero, saturating to the int64 range. -/
def toI64 (q : ℚ) : Int :=
  max (-(2 ^ 63)) (min (2 ^ 63 - 1) (truncQ q))

/-- `big.Float.Uint64`: truncate toward zero, saturating to the uint64 range. -/
def toU64 (q : ℚ) : Nat :=
  let t := truncQ q
  if t < 0 then 0 else min t.toNat (2 ^ 64 - 1)

/-- `big.Float.Cmp`: -1, 0 or +1. -/
def cmpGo (x y : ℚ) : Int :=
  if x < y then -1 else if y < x then 1 else 0

/-- Go `int` division (truncated toward zero), used for `%` on slice rolls. -/
def tdivGo (a b : Int) : Int :=
  if (0 ≤ a) = (0 ≤ b) then ((a.natAbs / b.natAbs : Nat) : Int)
  else -((a.natAbs / b.natAbs : Nat) : Int)

/-- Go `%` / `big.Int.Rem`: truncated remainder (sign of the dividend). -/
def tmodGo (a b : Int) : Int := a - b * tdivGo a b

/-- `big.Int.And` (infinite two's complement, as in Go). -/
def iAnd (a b : Int) : Int :=
  if 0 ≤ a then
    if 0 ≤ b then (Nat.land a.toNat b.toNat : Nat)
    else a - (Nat.land a.toNat (-b - 1).toNat : Nat)
  else
    if 0 ≤ b then b - (Nat.land b.toNat (-a - 1).toNat : Nat)
    else -((Nat.lor (-a - 1).toNat (-b - 1).toNat : Nat) : Int) - 1

/-- `big.Int.Or` via De Morgan. -/
def iOr (a b : Int) : Int := -(iAnd (-a - 1) (-b - 1)) - 1

/-- `big.Int.Xor` (infinite two's complement). -/
def iXor (a b : Int) : Int :=
  if 0 ≤ a then
    if 0 ≤ b then (Nat.xor a.toNat b.toNat : Nat)
    else -((Nat.xor a.toNat (-b - 1).toNat : Nat) : Int) - 1
  else
    if 0 ≤ b then -((Nat.xor (-a - 1).toNat b.toNat : Nat) : Int) - 1
    else ((Nat.xor (-a - 1).toNat (-b - 1).toNat : Nat) : Int)

/-- `fact`: `big.Int.MulRange(1, a)` — exact product over `[1, a]`,
empty product (1) when `a < 1`. -/
def factGo (n : Int) : Int :=
  if n < 1 then 1
  else (((List.range n.toNat).map (fun j => (j : Int) + 1)).foldl (· * ·) 1)

/-- Big-endian bytes of the low `w` bytes of `x` (two's complement), as
written by `binary.Write(_, binary.BigEndian, _)`. -/
def beBytes (w : Nat) (x : Int) : List Nat :=
  (List.range w).map (fun j => ((x.emod (2 ^ (8 * w))).toNat / 2 ^ (8 * (w - 1 - j))) % 256)

/-- Round half to even: the integer nearest to `y`, ties to the even one
(the rounding mode of every `big.Float` in the source, ToNearestEven). -/
def rhe (y : ℚ) : Int :=
  let fl := ⌊y⌋
  if 2 * y < 2 * fl + 1 then fl
  else if 2 * (fl : ℚ) + 1 < 2 * y then fl + 1
  else if fl % 2 = 0 then fl else fl + 1

/-- Floor of the base-2 logarithm of a positive rational, computed from the
bit lengths of numerator and denominator (see `ilog2q_eq` below for its
characterisation by `2^e ≤ x < 2^(e+1)`). -/
def ilog2q (x : ℚ) : Int :=
  let a : Int := (Nat.log2 x.num.toNat : Int) - (Nat.log2 x.den : Int)
  if (2 : ℚ) ^ a ≤ x then a else a - 1

/-- Rounding of a positive rational to 53 significant bits, nearest-even:
scale into `[2^52, 2^53)`, round to an integer mantissa, scale back. -/
def rpos (x : ℚ) : ℚ :=
  let e := ilog2q x
  ((rhe (x * (2 : ℚ) ^ (52 - e)) : Int) : ℚ) * (2 : ℚ) ^ (e - 52)

/-- Rounding of a rational to `big.Float` precision 53, ToNearestEven,
with unbounded exponent: the value every `big.NewFloat(0)`-backed result
in the source actually stores. -/
def round53 (q : ℚ) : ℚ :=
  if q = 0 then 0
  else if q < 0 then -(rpos (-q)) else rpos q

/-- The `float64` approximation boundary: `math.*` routines and `rand`,
abstracted as rational-valued parameters (see the file header). -/
structure Approx where
  acosF : ℚ → ℚ
  asinF : ℚ → ℚ
  atanF : ℚ → ℚ
  cosF : ℚ → ℚ
  coshF : ℚ → ℚ
  sinF : ℚ → ℚ
  sinhF : ℚ → ℚ
  tanhF : ℚ → ℚ
  sqrtF : ℚ → ℚ
  lnF : ℚ → ℚ
  log10F : ℚ → ℚ
  powF : ℚ → ℚ → ℚ
  eF : ℚ
  piF : ℚ
  randF : ℚ

/-- A fixed instantiation of `Approx`, used only to state concrete-trace
theorems whose executions never reach a transcendental operator. -/
def apZ : Approx :=
  ⟨fun _ => 0, fun _ => 0, fun _ => 0, fun _ => 0, fun _ => 0, fun _ => 0,
   fun _ => 0, fun _ => 0, fun _ => 0, fun _ => 0, fun _ => 0,
   fun _ _ => 0, 0, 0, 0⟩

/-- Decimal digit test. -/
def isDig (c : Char) : Bool := '0' ≤ c ∧ c ≤ '9'

/-- Hexadecimal digit test. -/
def isHexDig (c : Char) : Bool :=
  isDig c ∨ ('a' ≤ c ∧ c ≤ 'f') ∨ ('A' ≤ c ∧ c ≤ 'F')

/-- Splits a leading run of characters passing `p`, returning its length
together with the rest. -/
def takeRun (p : Char → Bool) : List Char → Nat × List Char
  | [] => (0, [])
  | c :: t =>
    if p c then
      let (n, r) := takeRun p t
      (n + 1, r)
    else (0, c :: t)

/-- Consumes an optional sign character. -/
def dropSign : List Char → List Char
  | '+' :: t => t
  | '-' :: t => t
  | cs => cs

/-- Model of `fmt.Sscanf(s, "%f", …)` succeeding: the scanner's float token
(greedy over the decimal or hex float character classes, per `fmt`'s
`floatToken`) parses under `strconv.ParseFloat`.  Trailing characters
outside the token are ignored by `Sscanf`.  Digit-separating underscores
are not modelled (see below: tokens containing them are dropped by
`big.Float.Parse` either way, so classification is unaffected). -/
def scanfF (s : String) : Bool :=
  match s.data with
  | 'n' :: 'a' :: 'n' :: _ => true
  | 'N' :: x :: y :: _ =>
    -- only a case-variant of "nan" survives ParseFloat
    (x = 'a' ∨ x = 'A') ∧ (y = 'n' ∨ y = 'N')
  | 'n' :: x :: y :: _ => (x = 'A') ∧ (y = 'n' ∨ y = 'N')
  | 'n' :: _ => false
  | 'N' :: _ => false
  | cs => scanfSigned (dropSign cs)
where
  scanfSigned (cs : List Char) : Bool :=
    match cs with
    | 'i' :: x :: y :: _ => (x = 'n' ∨ x = 'N') ∧ (y = 'f' ∨ y = 'F')
    | 'I' :: x :: y :: _ => (x = 'n' ∨ x = 'N') ∧ (y = 'f' ∨ y = 'F')
    | 'i' :: _ => false
    | 'I' :: _ => false
    | '0' :: 'x' :: t => scanfHex t
    | '0' :: 'X' :: t => scanfHex t
    | t => scanfDec t
  scanfHex (cs : List Char) : Bool :=
    -- hex mantissa; ParseFloat requires ≥ 1 digit and a p-exponent
    let (d1, r1) := takeRun isHexDig cs
    let (d2, r2) :=
      match r1 with
      | '.' :: t => takeRun isHexDig t
      | t => (0, t)
    if d1 + d2 = 0 then false
    else
      match r2 with
      | 'p' :: t => (takeRun isDig (dropSign t)).1 ≥ 1
      | 'P' :: t => (takeRun isDig (dropSign t)).1 ≥ 1
      | _ => false
  scanfDec (cs : List Char) : Bool :=
    let (d1, r1) := takeRun isDig cs
    let (d2, r2) :=
      match r1 with
      | '.' :: t => takeRun isDig t
      | t => (0, t)
    if d1 + d2 = 0 then false
    else
      match r2 with
      -- the token greedily includes an e/E/p/P exponent part; ParseFloat
      -- rejects 'p' exponents without a hex prefix and empty exponents
      | 'e' :: t => (takeRun isDig (dropSign t)).1 ≥ 1
      | 'E' :: t => (takeRun isDig (dropSign t)).1 ≥ 1
      | 'p' :: _ => false
      | 'P' :: _ => false
      | _ => true

/-- `getBase` of the source.  Note the source compares `s[0]` with the
integer 0 (the NUL byte), not the character '0', so the numeric-base-prefix
branch only fires on tokens whose first byte is NUL; and `%i` is not a verb
`fmt` knows, so `err2` is always non-nil and the result is 10 exactly when
`%f` scans. -/
def getBase (s : String) : Int :=
  if s.length = 0 then -1
  else
    let scanned : Int := if scanfF s then 10 else 0
    if s.data.headD ' ' = Char.ofNat 0 ∧ 3 < s.length then
      match s.data[1]? with
      | some 'x' => 16
      | some 'd' => 10
      | some 'o' => 8
      | some 'b' => 2
      | _ => scanned
    else scanned

/-- Digit value of `c` in base `b` (`b ∈ {2,8,10,16}`), as accepted by
`big.Float.Parse`'s mantissa scanner. -/
def digVal (b : Nat) (c : Char) : Option Nat :=
  if isDig c ∧ c.toNat - '0'.toNat < b then some (c.toNat - '0'.toNat)
  else if b = 16 ∧ 'a' ≤ c ∧ c ≤ 'f' then some (c.toNat - 'a'.toNat + 10)
  else if b = 16 ∧ 'A' ≤ c ∧ c ≤ 'F' then some (c.toNat - 'A'.toNat + 10)
  else none

/-- Splits a leading run of base-`b` digits, returning their values. -/
def takeDigs (b : Nat) : List Char → List Nat × List Char
  | [] => ([], [])
  | c :: t =>
    match digVal b c with
    | some d =>
      let (ds, r) := takeDigs b t
      (d :: ds, r)
    | none => ([], c :: t)

/-- Value of a digit string in base `b`. -/
def digsVal (b : Nat) (ds : List Nat) : Nat := ds.foldl (fun a d => a * b + d) 0

/-- Model of `big.NewFloat(0).Parse(s, base)` succeeding with an exact
mantissa: full-string parse of `[+-] digits [. digits] [exponent]` in the
given base (which `Parse` is only ever called with ≠ 0, so no prefix and no
underscores are accepted); a decimal `e`/`E` exponent is permitted only for
base 10, a binary `p`/`P` exponent for any base.  `"inf"`-like tokens
(accepted by the source as IEEE infinities) are outside the rational model
and yield `none` here. -/
def bigFloatParse (s : String) (base : Int) : Option ℚ :=
  if base = 2 ∨ base = 8 ∨ base = 10 ∨ base = 16 then
    let b : Nat := base.toNat
    let (neg, cs0) :=
      match s.data with
      | '+' :: t => (false, t)
      | '-' :: t => (true, t)
      | cs => (false, cs)
    let (ds1, r1) := takeDigs b cs0
    let (ds2, r2) :=
      match r1 with
      | '.' :: t => takeDigs b t
      | t => ([], t)
    if ds1.length + ds2.length = 0 then none
    else
      -- an integer mantissa is kept as a plain cast (same value as the
      -- general formula with an empty fraction; avoids a unit division)
      let mant : ℚ :=
        match ds2 with
        | [] => (digsVal b ds1 : ℚ)
        | _ => (digsVal b (ds1 ++ ds2) : ℚ) / ((b : ℚ) ^ ds2.length)
      let expPart : List Char → Option ℚ := fun t =>
        let (eneg, t2) :=
          match t with
          | '+' :: u => (false, u)
          | '-' :: u => (true, u)
          | u => (false, u)
        let (eds, r3) := takeDigs 10 t2
        if eds.length = 0 ∨ r3 ≠ [] then none
        else some (if eneg then -((digsVal 10 eds : Int)) else (digsVal 10 eds : Int))
      -- the receiver big.NewFloat(0) has precision 53, so the parsed
      -- value is rounded to 53 bits, nearest-even
      match r2 with
      | [] => some (round53 (if neg then -mant else mant))
      | 'e' :: t =>
        if b = 10 then (expPart t).map (fun e => round53 ((if neg then -mant else mant) * (10 : ℚ) ^ (⌊e⌋ : Int)))
        else none
      | 'E' :: t =>
        if b = 10 then (expPart t).map (fun e => round53 ((if neg then -mant else mant) * (10 : ℚ) ^ (⌊e⌋ : Int)))
        else none
      | 'p' :: t => (expPart t).map (fun e => round53 ((if neg then -mant else mant) * (2 : ℚ) ^ (⌊e⌋ : Int)))
      | 'P' :: t => (expPart t).map (fun e => round53 ((if neg then -mant else mant) * (2 : ℚ) ^ (⌊e⌋ : Int)))
      | _ => none
  else none

/-- One token of `Parse`'s loop body.  The source tests
`lex[i][:len(lex[i])-1] == "="` — the token *minus its last character*
against `"="` — and uses the same sliced string as the binding target, so
only two-character tokens beginning with `=` classify as assignments, and
their recorded name is always `"="`. -/
def parseTok (kws : List String) (acc : List Var × VMap) (tok : String) :
    List Var × VMap :=
  let base := getBase tok
  if base = 0 then
    let head := tok.dropRight 1
    if head = "=" then
      (acc.1 ++ [⟨.Assignment, head, some 0, [], []⟩],
       vinsert acc.2 head ⟨.Code, "=", some 0, [], []⟩)
    else if tok ∈ kws then (acc.1 ++ [⟨.Code, tok, some 0, [], []⟩], acc.2)
    else (acc.1 ++ [⟨.Variable, tok, some 0, [], []⟩], acc.2)
  else
    match bigFloatParse tok base with
    | some q => (acc.1 ++ [⟨.Number, "", some q, [], []⟩], acc.2)
    | none => acc

/-- `Parse` of the source (the global `keyWords` registry is passed in). -/
def Parse (kws : List String) (lex : List String) : List Var × VMap :=
  lex.foldl (parseTok kws) ([], [])

/-- Go indexing `stack[i]` with an `int` index: `none` models the
index-out-of-range panic. -/
def gidx (st : List Var) (i : Int) : Option Var :=
  if i < 0 then none else st[i.toNat]?

/-- Go slicing `stack[lo:hi]`: defined iff `0 ≤ lo ≤ hi ≤ len`. -/
def sliceGo (st : List Var) (lo hi : Int) : Option (List Var) :=
  if 0 ≤ lo ∧ lo ≤ hi ∧ hi ≤ (st.length : Int) then
    some ((st.drop lo.toNat).take (hi - lo).toNat)
  else none

/-- Go slicing `stack[lo:]`. -/
def sliceFrom (st : List Var) (lo : Int) : Option (List Var) :=
  if 0 ≤ lo ∧ lo ≤ (st.length : Int) then some (st.drop lo.toNat) else none

/-- Go slicing `stack[:hi]`. -/
def sliceTo (st : List Var) (hi : Int) : Option (List Var) :=
  if 0 ≤ hi ∧ hi ≤ (st.length : Int) then some (st.take hi.toNat) else none

/-- `remove(stack, pos, removeN)` of the source:
`append(stack[:pos-removeN], stack[pos:]...)`. -/
def removeGo (st : List Var) (pos k : Int) : Option (List Var) :=
  match sliceTo st (pos - k), sliceFrom st pos with
  | some a, some b => some (a ++ b)
  | _, _ => none

/-- Outcome of one iteration of `Eval`'s loop body: continue with the new
state and the index the body left in `i` (the loop's `i++` is applied by
the driver), or a recovered run-time panic, or `log.Fatal`. -/
inductive StepOut
  | next (stack : List Var) (vars : VMap) (kws : List String) (i : Int)
  | panicked (kws : List String)
  | fatal

/-- The shared shape of every binary `case` of the switch: read
`stack[i-2].F` and `stack[i-1].F`, overwrite the operator cell with a
`Number` carrying `rq a b`, then `remove(stack, i, 2)` and `i -= 2`.
`rq` returns `none` where the source's computation panics; since the
receiver has precision 53, callers pass results through `round53` wherever
the source stores a freshly computed value. -/
def bin2 (st : List Var) (vars : VMap) (kws : List String) (i : Int) (c : Var)
    (rq : ℚ → ℚ → Option ℚ) : StepOut :=
  match gidx st (i - 2), gidx st (i - 1) with
  | some x, some y =>
    match x.f, y.f with
    | some a, some b =>
      match rq a b with
      | some r =>
        match removeGo (st.set i.toNat { c with ty := .Number, f := some r }) i 2 with
        | some st2 => .next st2 vars kws (i - 2)
        | none => .panicked kws
      | none => .panicked kws
    | _, _ => .panicked kws
  | _, _ => .panicked kws

/-- The shared shape of the unary function cases (trig, `sqrt`, `ln`,
`log`, `fact`, `hnl`, `hns`): read `stack[i-1].F`, overwrite the operator
cell with `mkCell a`, then `remove(stack, i, 1)` and `i -= 1`. -/
def una1 (st : List Var) (vars : VMap) (kws : List String) (i : Int)
    (mkCell : ℚ → Var) : StepOut :=
  match gidx st (i - 1) with
  | some p =>
    match p.f with
    | some a =>
      match removeGo (st.set i.toNat (mkCell a)) i 1 with
      | some st2 => .next st2 vars kws (i - 1)
      | none => .panicked kws
    | none => .panicked kws
  | none => .panicked kws

/-- The shared shape of `!`, `++`, `--`: mutate `stack[i-1].F` in place via
`g`, then `remove(stack, i+1, 1)` (drop the operator cell) and `i -= 1`. -/
def mut1 (st : List Var) (vars : VMap) (kws : List String) (i : Int)
    (g : ℚ → ℚ) : StepOut :=
  match gidx st (i - 1) with
  | some p =>
    match p.f with
    | some b =>
      match removeGo (st.set (i.toNat - 1) { p with f := some (g b) }) (i + 1) 1 with
      | some st2 => .next st2 vars kws (i - 1)
      | none => .panicked kws
    | none => .panicked kws
  | none => .panicked kws

/-- The shared shape of the display-mode cases (`hex`/`dec`/`bin`/`oct`):
set the global mode (not modelled, see the file header), then
`remove(stack, i+1, 1)` and `i -= 1`. -/
def mode1 (st : List Var) (vars : VMap) (kws : List String) (i : Int) : StepOut :=
  match removeGo st (i + 1) 1 with
  | some st2 => .next st2 vars kws (i - 1)
  | none => .panicked kws

/-- The shared shape of the constant cases (`e`/`pi`/`rand`): overwrite the
operator cell in place with a `Number`, no operand, no index change. -/
def const0 (st : List Var) (vars : VMap) (kws : List String) (i : Int) (c : Var)
    (q : ℚ) : StepOut :=
  .next (st.set i.toNat { c with ty := .Number, f := some q }) vars kws i

/-- Truth-table translation of the comparison switches: the source computes
`stack[i-1].F.Cmp(stack[i-2].F)` (top against the cell beneath, note the
order) and maps -1/1/0 to the three given constants. -/
def cmp3 (vlt veq vgt : ℚ) (a b : ℚ) : ℚ :=
  if cmpGo b a = -1 then vlt else if cmpGo b a = 1 then vgt else veq

/-- One iteration of the body of `Eval`'s loop over `stack[i]`.  Each arm
is the source's `case` of the same name; `.panicked` marks exactly the
places the Go runtime would panic (out-of-range index/slice, nil
`*big.Float` method call, `Rem` by zero, negative `make`).  Line numbers
refer to `main.go`. -/
def stepAt (ap : Approx) (st0 : List Var) (vars : VMap) (kws : List String)
    (i : Int) : StepOut :=
  match gidx st0 i with
  | none => .panicked kws
  | some c =>
    let idx := i.toNat
    match c.ty with
    | .Number => .next st0 vars kws i
    | .Variable =>
      -- lines 313-323: bound ⇒ substitute and retreat; unbound ⇒ the cell
      -- is overwritten with the zero Var (`prev` is itself the zero value)
      match vlookup vars c.v with
      | some x => .next (st0.set idx x) vars kws (i - 1)
      | none => .next (st0.set idx zeroVar) vars kws i
    | .String => .next st0 vars kws i  -- no case in the switch
    | .Assignment =>
      -- lines 981-983
      match gidx st0 (i - 1) with
      | none => .panicked kws
      | some p =>
        match removeGo st0 (i + 1) 2 with
        | some st2 => .next st2 (vinsert vars c.v p) kws i
        | none => .panicked kws
    | .Code =>
      if c.v ∈ kws then
        -- line 326: stack[i].F = big.NewFloat(0)
        let st := st0.set idx { c with f := some 0 }
        match c.v with
        | "debug" =>
          -- line 331: the result of remove is discarded, but append has
          -- already shifted the backing array in place: the cell vanishes
          -- from positions i.., the last cell is duplicated, and the
          -- length is unchanged
          .next (st.take idx ++ st.drop (idx + 1) ++ st.drop (st.length - 1))
            vars kws (i - 1)
        | "+" => bin2 st vars kws i c (fun a b => some (round53 (a + b)))
        | "-" => bin2 st vars kws i c (fun a b => some (round53 (a - b)))
        | "*" => bin2 st vars kws i c (fun a b => some (round53 (a * b)))
        | "/" =>
          -- a zero divisor yields ±Inf (or panics on 0/0): outside the
          -- rational model, treated as a fault (file header)
          bin2 st vars kws i c (fun a b => if b = 0 then none else some (round53 (a / b)))
        | "cla" => .next [] [] kws 0
        | "clr" => .next [] vars kws 0
        | "clv" => .next st [] kws i
        | "!" => mut1 st vars kws i (fun b => -b)  -- Neg is exact at any precision
        | "%" =>
          -- big.Int.Rem panics on a zero modulus
          bin2 st vars kws i c (fun a b =>
            if truncQ b = 0 then none
            else some (round53 ((tmodGo (truncQ a) (truncQ b) : Int) : ℚ)))
        | "++" => mut1 st vars kws i (fun b => round53 (b + 1))
        | "--" => mut1 st vars kws i (fun b => round53 (b - 1))
        | "&" => bin2 st vars kws i c (fun a b => some (round53 ((iAnd (truncQ a) (truncQ b) : Int) : ℚ)))
        | "|" => bin2 st vars kws i c (fun a b => some (round53 ((iOr (truncQ a) (truncQ b) : Int) : ℚ)))
        | "^" => bin2 st vars kws i c (fun a b => some (round53 ((iXor (truncQ a) (truncQ b) : Int) : ℚ)))
        | "~" =>
          -- note: the source reads stack[i-2] and removes one cell at i-1
          match gidx st (i - 2) with
          | some x =>
            match x.f with
            | some a =>
              match removeGo (st.set idx { c with ty := .Number, f := some (round53 ((-(truncQ a) - 1 : Int) : ℚ)) }) i 1 with
              | some st2 => .next st2 vars kws (i - 1)
              | none => .panicked kws
            | none => .panicked kws
          | none => .panicked kws
        | "<<" => bin2 st vars kws i c (fun a b => some (round53 ((truncQ a * 2 ^ toU64 b : Int) : ℚ)))
        | ">>" => bin2 st vars kws i c (fun a b => some (round53 ((Int.ediv (truncQ a) (2 ^ toU64 b) : Int) : ℚ)))
        | "!=" => bin2 st vars kws i c (fun a b => some (cmp3 1 0 1 a b))
        | "==" => bin2 st vars kws i c (fun a b => some (cmp3 0 1 0 a b))
        | "<" => bin2 st vars kws i c (fun a b => some (cmp3 1 0 0 a b))
        | "<=" => bin2 st vars kws i c (fun a b => some (cmp3 1 1 0 a b))
        | ">" => bin2 st vars kws i c (fun a b => some (cmp3 0 0 1 a b))
        | ">=" => bin2 st vars kws i c (fun a b => some (cmp3 0 1 1 a b))
        | "&&" => bin2 st vars kws i c (fun a b => some (if toU64 a ≠ 0 ∧ toU64 b ≠ 0 then 1 else 0))
        | "||" => bin2 st vars kws i c (fun a b => some (if toU64 a ≠ 0 ∨ toU64 b ≠ 0 then 1 else 0))
        | "^^" => bin2 st vars kws i c (fun a b =>
            some (if (¬toU64 a ≠ 0 ∧ toU64 b ≠ 0) ∨ (toU64 a ≠ 0 ∧ ¬toU64 b ≠ 0) then 1 else 0))
        | "acos" => una1 st vars kws i (fun a => { c with ty := .Number, f := some (ap.acosF a) })
        | "asin" => una1 st vars kws i (fun a => { c with ty := .Number, f := some (ap.asinF a) })
        | "atan" => una1 st vars kws i (fun a => { c with ty := .Number, f := some (ap.atanF a) })
        | "cos" => una1 st vars kws i (fun a => { c with ty := .Number, f := some (ap.cosF a) })
        | "cosh" => una1 st vars kws i (fun a => { c with ty := .Number, f := some (ap.coshF a) })
        | "sin" => una1 st vars kws i (fun a => { c with ty := .Number, f := some (ap.sinF a) })
        | "sinh" => una1 st vars kws i (fun a => { c with ty := .Number, f := some (ap.sinhF a) })
        | "tanh" => una1 st vars kws i (fun a => { c with ty := .Number, f := some (ap.tanhF a) })
        | "hex" => mode1 st vars kws i
        | "dec" => mode1 st vars kws i
        | "bin" => mode1 st vars kws i
        | "oct" => mode1 st vars kws i
        | "e" => const0 st vars kws i c ap.eF
        | "pi" => const0 st vars kws i c ap.piF
        | "rand" => const0 st vars kws i c ap.randF
        | "pow" => bin2 st vars kws i c (fun a b => some (ap.powF a b))
        | "**" => bin2 st vars kws i c (fun a b => some (ap.powF a b))
        | "exp" => bin2 st vars kws i c (fun a b => some (ap.powF a b))
        | "fact" => una1 st vars kws i (fun a => { c with ty := .Number, f := some (round53 ((factGo (toI64 a) : Int) : ℚ)) })
        | "sqrt" => una1 st vars kws i (fun a => { c with ty := .Number, f := some (ap.sqrtF a) })
        | "ln" => una1 st vars kws i (fun a => { c with ty := .Number, f := some (ap.lnF a) })
        | "log" => una1 st vars kws i (fun a => { c with ty := .Number, f := some (ap.log10F a) })
        | "hnl" => una1 st vars kws i (fun a => { c with ty := .String, f := some a, b := beBytes 8 (toI64 a) })
        | "hns" =>
          -- the source narrows to int32 before writing 4 bytes
          una1 st vars kws i (fun a => { c with ty := .String, f := some a, b := beBytes 4 (toI64 a) })
        | "nhl" =>
          match gidx st (i - 1) with
          | some p =>
            match removeGo (st.set idx { p with ty := .Number }) i 1 with
            | some st2 => .next st2 vars kws (i - 1)
            | none => .panicked kws
          | none => .panicked kws
        | "nhs" =>
          match gidx st (i - 1) with
          | some p =>
            match removeGo (st.set idx { p with ty := .Number }) i 1 with
            | some st2 => .next st2 vars kws (i - 1)
            | none => .panicked kws
          | none => .panicked kws
        | "pick" =>
          match gidx st (i - 1) with
          | some p =>
            match p.f with
            | some a =>
              -- absolute index into the stack
              match gidx st (toI64 a) with
              | some t =>
                match removeGo (st.set idx t) i 1 with
                | some st2 => .next st2 vars kws (i - 1)
                | none => .panicked kws
              | none => .panicked kws
            | none => .panicked kws
          | none => .panicked kws
        | "repeat" =>
          match gidx st (i - 1) with
          | some p =>
            match p.f with
            | some a =>
              let n := toI64 a
              if n < 0 then .panicked kws  -- make([]Var, n) with n < 0
              else
                match (if 1 ≤ n then gidx st (i + 1) else some zeroVar) with
                | none => .panicked kws
                | some tpl =>
                  match sliceFrom st (i + 2), sliceTo st (i - 1) with
                  | some rest, some stem =>
                    .next (stem ++ List.replicate n.toNat tpl ++ rest) vars kws (i - 2)
                  | _, _ => .panicked kws
            | none => .panicked kws
          | none => .panicked kws
        | "depth" =>
          .next (st.set idx { c with ty := .Number, f := some (i : ℚ) }) vars kws i
        | "drop" =>
          match removeGo st (i + 1) 2 with
          | some st2 => .next st2 vars kws (i - 1)
          | none => .panicked kws
        | "dropn" =>
          match gidx st (i - 1) with
          | some p =>
            match p.f with
            | some a =>
              let n := toI64 a
              match removeGo st (i + 1) (n + 2) with
              | some st2 => .next st2 vars kws (i - n)
              | none => .panicked kws
            | none => .panicked kws
          | none => .panicked kws
        | "dup" =>
          match gidx st (i - 1) with
          | some p => .next (st.set idx p) vars kws i
          | none => .panicked kws
        | "dupn" =>
          match gidx st (i - 1) with
          | some p =>
            match p.f with
            | some a =>
              -- lines 894-899: the duplicated window is stack[i-2-n : i-2],
              -- one position short of the count cell, and the cell at i-2
              -- is dropped by append(stack[:i-2], ...)
              let n := toI64 a
              match sliceGo st (i - 2 - n) (i - 2) with
              | none => .panicked kws
              | some tmpS =>
                match sliceFrom st (i + 1), sliceTo st (i - 2) with
                | some rest, some stem => .next (stem ++ tmpS ++ rest) vars kws (i - 2)
                | _, _ => .panicked kws
            | none => .panicked kws
          | none => .panicked kws
        | "roll" =>
          match gidx st (i - 1) with
          | some p =>
            match p.f with
            | some a =>
              let n := tmodGo (toI64 a) (st.length : Int)
              if n < 0 then .panicked kws  -- make([]Var, n) with n < 0
              else if i - 1 - n < 0 then .panicked kws  -- stack[i-2-j] underflow
              else
                match sliceFrom st (i + 1), sliceTo st (i - n - 1) with
                | some rest, some stem =>
                  .next (((st.drop (i - 1 - n).toNat).take n.toNat).reverse ++ stem ++ rest)
                    vars kws (i - 1)
                | _, _ => .panicked kws
            | none => .panicked kws
          | none => .panicked kws
        | "rolld" =>
          -- lines 918-926 always panic: make([]Var, n-1) with n ≤ 0 is a
          -- negative make, and for n ≥ 1 the write tmpS[n-1] (or the read
          -- stack[n+j]) is out of range; the count accesses themselves
          -- (stack[i-1], nil F) panic too
          .panicked kws
        | "stack" => .next st vars kws i  -- only toggles the display flag
        | "swap" =>
          match gidx st (i - 2), gidx st (i - 1) with
          | some x, some y =>
            match removeGo ((st.set (idx - 2) y).set (idx - 1) x) (i + 1) 1 with
            | some st2 => .next st2 vars kws i  -- no index adjustment in the source
            | none => .panicked kws
          | _, _ => .panicked kws
        | "macro" =>
          match gidx st (i + 1) with
          | none => .panicked kws
          | some nmCell =>
            match sliceFrom st (i + 2), sliceTo st i with
            | some body, some stem =>
              let mcell : Var := { c with ty := .Code, v := nmCell.v, f := some 0, code := body }
              .next stem (vinsert vars nmCell.v mcell) (kwInsert kws nmCell.v) i
            | _, _ => .panicked kws
        | "help" => .next st vars kws i
        | "exit" => .next st vars kws (st.length : Int)
        | _ =>
          -- keyword with no switch case (numeric utilities, "=", names
          -- registered by macro definitions): the default arm splices
          -- vars[name].Code (empty when unbound) over the cell
          match sliceFrom st (i + 1) with
          | none => .panicked kws
          | some rest =>
            let body := match vlookup vars c.v with
              | some x => x.code
              | none => []
            -- both Go branches (i != 0 / i == 0) keep exactly the prefix
            -- before i
            .next (st.take idx ++ body ++ rest) vars kws (i - 1)
      else
        match vlookup vars c.v with
        | some x => .next (st0.set idx x) vars kws (i - 1)
        | none => .fatal  -- log.Fatal("TODO ", ...): the process exits

/-- Result of `Eval`: a normal return (whose `fp` is `len(stack)` by the
source's only return statement), a recovered panic (the deferred `recover`
fires as `Eval` unwinds, so `Eval` returns its zero values — the registry
is a global and keeps any mutations), or `log.Fatal`. -/
inductive EvalRes
  | ok (stack : List Var) (vars : VMap) (kws : List String) (fp : Nat)
  | panicked (kws : List String)
  | fatal

/-- The loop of `Eval`, with explicit fuel for the (possibly divergent)
macro-expansion dynamics; `none` means the fuel ran out with the loop still
running.  On normal exit the returned `fp` is `len(stack)` — the source's
single `return stack, vars, len(stack)`. -/
def evalLoop (ap : Approx) : Nat → List Var → VMap → List String → Int → Option EvalRes
  | 0, st, vars, kws, i =>
    if i < (st.length : Int) then none else some (.ok st vars kws st.length)
  | Nat.succ f, st, vars, kws, i =>
    if i < (st.length : Int) then
      match stepAt ap st vars kws i with
      | .next st2 v2 k2 i2 => evalLoop ap f st2 v2 k2 (i2 + 1)
      | .panicked k2 => some (.panicked k2)
      | .fatal => some .fatal
    else some (.ok st vars kws st.length)

/-! Helper lemmas shared by the claim theorems. -/

theorem getq_append (pre post : List Var) (c : Var) :
    (pre ++ c :: post)[pre.length]? = some c := by
  rw [List.getElem?_append_right (Nat.le_refl _)]
  simp

theorem gidx_append (pre post : List Var) (c : Var) :
    gidx (pre ++ c :: post) (pre.length : Int) = some c := by
  unfold gidx
  rw [if_neg (by omega)]
  rw [show ((pre.length : Int)).toNat = pre.length from rfl]
  exact getq_append pre post c

theorem set_append_len (pre post : List Var) (c d : Var) :
    (pre ++ c :: post).set pre.length d = pre ++ d :: post := by
  induction pre with
  | nil => rfl
  | cons a t ih => simp [List.set, ih]

theorem evalLoop_done (ap : Approx) (f : Nat) (st : List Var) (vs : VMap)
    (k : List String) (i : Int) (h : ¬ i < (st.length : Int)) :
    evalLoop ap f st vs k i = some (.ok st vs k st.length) := by
  cases f <;> simp [evalLoop, h]

theorem evalLoop_step (ap : Approx) (f : Nat) (st : List Var) (vs : VMap)
    (k : List String) (i : Int) (hf : f ≠ 0) (hl : i < (st.length : Int)) :
    evalLoop ap f st vs k i =
      match stepAt ap st vs k i with
      | .next st2 v2 k2 i2 => evalLoop ap (f - 1) st2 v2 k2 (i2 + 1)
      | .panicked k2 => some (.panicked k2)
      | .fatal => some .fatal := by
  cases f with
  | zero => exact absurd rfl hf
  | succ n => simp [evalLoop, hl]

theorem ilog2q_eq (x : ℚ) (e : Int) (h1 : (2 : ℚ) ^ e ≤ x) (h2 : x < (2 : ℚ) ^ (e + 1)) :
    ilog2q x = e := by
  have hx : 0 < x := lt_of_lt_of_le (zpow_pos (by norm_num) e) h1
  have hnum : 0 < x.num := Rat.num_pos.mpr hx
  have htn : ((x.num.toNat : Int)) = x.num := Int.toNat_of_nonneg hnum.le
  have hn0 : x.num.toNat ≠ 0 := by omega
  have hxeq : x = (x.num : ℚ) / (x.den : ℚ) := (Rat.num_div_den x).symm
  have hdq : (0 : ℚ) < (x.den : ℚ) := by
    exact_mod_cast Nat.pos_of_ne_zero x.den_nz
  set ln := Nat.log2 x.num.toNat with hln
  set ld := Nat.log2 x.den with hld
  set a : Int := (ln : Int) - (ld : Int) with ha
  have i2 : (2 : Int) ^ ln ≤ x.num := by
    rw [← htn]; exact_mod_cast Nat.log2_self_le hn0
  have i1 : x.num < (2 : Int) ^ (ln + 1) := by
    rw [← htn]; exact_mod_cast Nat.lt_log2_self
  have B2 : (2 : ℚ) ^ ((ln : Int)) ≤ (x.num : ℚ) := by
    rw [zpow_natCast]; exact_mod_cast i2
  have B1 : (x.num : ℚ) < (2 : ℚ) ^ ((ln : Int) + 1) := by
    rw [show ((ln : Int) + 1) = (((ln + 1 : Nat)) : Int) by push_cast; ring, zpow_natCast]
    exact_mod_cast i1
  have B4 : (2 : ℚ) ^ ((ld : Int)) ≤ (x.den : ℚ) := by
    rw [zpow_natCast]; exact_mod_cast Nat.log2_self_le x.den_nz
  have B3 : (x.den : ℚ) < (2 : ℚ) ^ ((ld : Int) + 1) := by
    rw [show ((ld : Int) + 1) = (((ld + 1 : Nat)) : Int) by push_cast; ring, zpow_natCast]
    exact_mod_cast Nat.lt_log2_self
  have hup : x < (2 : ℚ) ^ (a + 1) := by
    rw [hxeq, div_lt_iff₀ hdq]
    calc (x.num : ℚ) < (2 : ℚ) ^ ((ln : Int) + 1) := B1
      _ = (2 : ℚ) ^ (a + 1) * (2 : ℚ) ^ ((ld : Int)) := by
          rw [← zpow_add₀ (two_ne_zero : (2 : ℚ) ≠ 0)]
          congr 1
          omega
      _ ≤ (2 : ℚ) ^ (a + 1) * (x.den : ℚ) :=
          mul_le_mul_of_nonneg_left B4 (le_of_lt (zpow_pos (by norm_num) _))
  have hlow : (2 : ℚ) ^ (a - 1) < x := by
    rw [hxeq, lt_div_iff₀ hdq]
    calc (2 : ℚ) ^ (a - 1) * (x.den : ℚ)
        < (2 : ℚ) ^ (a - 1) * (2 : ℚ) ^ ((ld : Int) + 1) :=
          mul_lt_mul_of_pos_left B3 (zpow_pos (by norm_num) _)
      _ = (2 : ℚ) ^ ((ln : Int)) := by
          rw [← zpow_add₀ (two_ne_zero : (2 : ℚ) ≠ 0)]
          congr 1
          omega
      _ ≤ (x.num : ℚ) := B2
  have hea : e ≤ a := by
    by_contra hc
    push_neg at hc
    have hz : (2 : ℚ) ^ (a + 1) ≤ (2 : ℚ) ^ e := zpow_le_zpow_right₀ (by norm_num) (by omega)
    exact lt_irrefl x (lt_of_lt_of_le (lt_of_lt_of_le hup hz) h1)
  have hae : a - 1 ≤ e := by
    by_contra hc
    push_neg at hc
    have hz : (2 : ℚ) ^ (e + 1) ≤ (2 : ℚ) ^ (a - 1) := zpow_le_zpow_right₀ (by norm_num) (by omega)
    exact lt_irrefl x (lt_trans (lt_of_lt_of_le h2 hz) hlow)
  unfold ilog2q
  rw [← hln, ← hld, ← ha]
  rcases (by omega : e = a ∨ e = a - 1) with he | he
  · rw [if_pos (he ▸ h1)]
    exact he.symm
  · have hxa : x < (2 : ℚ) ^ a := by
      rw [show a = e + 1 by omega]
      exact h2
    rw [if_neg (not_le.mpr hxa)]
    omega

theorem round53_lit7 : round53 ((3 : ℚ) + 4) = 7 := by
  rw [show ((3 : ℚ) + 4) = 7 by norm_num]
  simp only [round53]
  rw [if_neg (by norm_num), if_neg (by norm_num)]
  simp only [rpos]
  rw [ilog2q_eq 7 2 (by norm_num) (by norm_num)]
  norm_num [rhe]

theorem round53_lit11 : round53 ((5 : ℚ) + 6) = 11 := by
  rw [show ((5 : ℚ) + 6) = 11 by norm_num]
  simp only [round53]
  rw [if_neg (by norm_num), if_neg (by norm_num)]
  simp only [rpos]
  rw [ilog2q_eq 11 3 (by norm_num) (by norm_num)]
  norm_num [rhe]

theorem round53_lit1024 : round53 ((1024 : Nat) : ℚ) = 1024 := by
  rw [show (((1024 : Nat)) : ℚ) = 1024 by norm_num]
  simp only [round53]
  rw [if_neg (by norm_num), if_neg (by norm_num)]
  simp only [rpos]
  rw [ilog2q_eq 1024 10 (by norm_num) (by norm_num)]
  norm_num [rhe]

theorem round53_twoPow53succ :
    round53 ((9007199254740992 : ℚ) + 1) = 9007199254740992 := by
  rw [show ((9007199254740992 : ℚ) + 1) = 9007199254740993 by norm_num]
  simp only [round53]
  rw [if_neg (by norm_num), if_neg (by norm_num)]
  simp only [rpos]
  rw [ilog2q_eq 9007199254740993 53 (by norm_num) (by norm_num)]
  norm_num [rhe]

theorem cmp3LT (a b : ℚ) : cmp3 1 0 0 a b = if b < a then 1 else 0 := by
  unfold cmp3 cmpGo
  rcases lt_trichotomy b a with h | h | h
  · simp [h, asymm h]
  · simp [h, lt_irrefl]
  · simp [h, asymm h, (by omega : (1 : Int) ≠ -1)]

theorem cmp3LE (a b : ℚ) : cmp3 1 1 0 a b = if b ≤ a then 1 else 0 := by
  unfold cmp3 cmpGo
  rcases lt_trichotomy b a with h | h | h
  · simp [h, asymm h, le_of_lt h]
  · simp [h, lt_irrefl]
  · simp [h, asymm h, not_le_of_lt h, (by omega : (1 : Int) ≠ -1)]

theorem cmp3GT (a b : ℚ) : cmp3 0 0 1 a b = if a < b then 1 else 0 := by
  unfold cmp3 cmpGo
  rcases lt_trichotomy b a with h | h | h
  · simp [h, asymm h]
  · simp [h, lt_irrefl]
  · simp [h, asymm h, (by omega : (1 : Int) ≠ -1)]

theorem cmp3GE (a b : ℚ) : cmp3 0 1 1 a b = if a ≤ b then 1 else 0 := by
  unfold cmp3 cmpGo
  rcases lt_trichotomy b a with h | h | h
  · simp [h, asymm h, not_le_of_lt h]
  · simp [h, lt_irrefl, le_of_eq h.symm]
  · simp [h, asymm h, le_of_lt h, (by omega : (1 : Int) ≠ -1)]

theorem cmp3EQ (a b : ℚ) : cmp3 0 1 0 a b = if a = b then 1 else 0 := by
  unfold cmp3 cmpGo
  rcases lt_trichotomy b a with h | h | h
  · simp [h, asymm h, (ne_of_gt h : a ≠ b)]
  · simp [h, lt_irrefl]
  · simp [h, asymm h, (ne_of_lt h : a ≠ b), (by omega : (1 : Int) ≠ -1)]

theorem cmp3NE (a b : ℚ) : cmp3 1 0 1 a b = if a = b then 0 else 1 := by
  unfold cmp3 cmpGo
  rcases lt_trichotomy b a with h | h | h
  · simp [h, asymm h, (ne_of_gt h : a ≠ b)]
  · simp [h, lt_irrefl]
  · simp [h, asymm h, (ne_of_lt h : a ≠ b), (by omega : (1 : Int) ≠ -1)]

/-! The claim theorems. -/

/-- C1 counterexample: the claimed exactness fails on the program — both
operands of `9007199254740992 1 +` are exactly representable, yet the sum
is rounded to `big.NewFloat(0)`'s 53-bit precision: the result Number is
2^53, not the exact a+b = 2^53 + 1. -/
theorem claim_C1_rounding_counterexample :
    evalLoop apZ 9 [numLit 9007199254740992, numLit 1, codeCell "+"] [] baseKW 0 =
        some (.ok [opNum "+" 9007199254740992] [] baseKW 1) ∧
    opNum "+" (9007199254740992 : ℚ) ≠ opNum "+" ((9007199254740992 : ℚ) + 1) := by
  constructor
  · have h : evalLoop apZ 9 [numLit 9007199254740992, numLit 1, codeCell "+"] [] baseKW 0 =
        some (.ok [opNum "+" (round53 ((9007199254740992 : ℚ) + 1))] [] baseKW 1) := rfl
    rw [h, round53_twoPow53succ]
  · simp only [opNum, Var.mk.injEq]
    norm_num

/-- C1 amended: for Number operands `a b` immediately preceding the
operator, `a b +` reduces to the single Number `round53 (a+b)` — the
53-bit round-to-nearest-even of the exact sum, the precision of the
`big.NewFloat(0)` receiver — and likewise `a b -`, `a b *`, and `a b /`
(the divisor nonzero so the quotient is a rational); the two operand cells
are removed and the operator cell becomes the Number result.  For results
representable in 53 bits the value is exact: `3 4 +` leaves the one-cell
stack holding exactly 7. -/
theorem claim_C1_binary_arith (ap : Approx) (a b : ℚ) (v : VMap) (hb : b ≠ 0) :
    evalLoop ap 9 [numLit a, numLit b, codeCell "+"] v baseKW 0 =
        some (.ok [opNum "+" (round53 (a + b))] v baseKW 1) ∧
    evalLoop ap 9 [numLit a, numLit b, codeCell "-"] v baseKW 0 =
        some (.ok [opNum "-" (round53 (a - b))] v baseKW 1) ∧
    evalLoop ap 9 [numLit a, numLit b, codeCell "*"] v baseKW 0 =
        some (.ok [opNum "*" (round53 (a * b))] v baseKW 1) ∧
    evalLoop ap 9 [numLit a, numLit b, codeCell "/"] v baseKW 0 =
        some (.ok [opNum "/" (round53 (a / b))] v baseKW 1) ∧
    evalLoop ap 9 [numLit 3, numLit 4, codeCell "+"] v baseKW 0 =
        some (.ok [opNum "+" 7] v baseKW 1) := by
  refine ⟨rfl, rfl, rfl, ?_, ?_⟩
  · have hstep : stepAt ap [numLit a, numLit b, codeCell "/"] v baseKW 2 =
        .next [opNum "/" (round53 (a / b))] v baseKW 0 := by
      have h1 : stepAt ap [numLit a, numLit b, codeCell "/"] v baseKW 2 =
          bin2 [numLit a, numLit b, codeCell "/"] v baseKW 2 (codeCell "/")
            (fun x y => if y = 0 then none else some (round53 (x / y))) := rfl
      rw [h1]
      norm_num [bin2, gidx, removeGo, sliceTo, sliceFrom, numLit, codeCell, opNum, hb]
      rfl
    calc evalLoop ap 9 [numLit a, numLit b, codeCell "/"] v baseKW 0
        = evalLoop ap 7 [numLit a, numLit b, codeCell "/"] v baseKW 2 := rfl
      _ = some (.ok [opNum "/" (round53 (a / b))] v baseKW 1) := by
          rw [evalLoop_step ap 7 _ _ _ _ (by norm_num) (by norm_num), hstep]
          rfl
  · have h : evalLoop ap 9 [numLit 3, numLit 4, codeCell "+"] v baseKW 0 =
        some (.ok [opNum "+" (round53 ((3 : ℚ) + 4))] v baseKW 1) := rfl
    rw [h, round53_lit7]

/-- C1 witness: the division conjunct at `a = 3`, `b = 4`. -/
theorem claim_C1_binary_arith_witness :
    (4 : ℚ) ≠ 0 ∧
    evalLoop apZ 9 [numLit 3, numLit 4, codeCell "/"] [] baseKW 0 =
      some (.ok [opNum "/" (round53 ((3 : ℚ) / 4))] [] baseKW 1) :=
  ⟨by norm_num, (claim_C1_binary_arith apZ 3 4 [] (by norm_num)).2.2.2.1⟩

/-- C2 counterexample: `3 4 <` reduces to the Number 0 — the
false-encoding constant (`Zero`), not the claimed true-encoding constant
(`One`). -/
theorem claim_C2_comparison_counterexample :
    evalLoop apZ 9 [numLit 3, numLit 4, codeCell "<"] [] baseKW 0 =
      some (.ok [opNum "<" 0] [] baseKW 1) ∧ opNum "<" 0 ≠ opNum "<" 1 :=
  ⟨rfl, by simp [opNum]⟩

/-- C2 amended: each comparison operator three-way compares the *top*
operand `b` against the operand `a` beneath it (the source calls
`stack[i-1].F.Cmp(stack[i-2].F)`), consumes both operands and replaces the
operator cell with `One`/`Zero`; so `a b <` encodes `b < a`, and in
particular `3 4 <` yields the false-encoding constant, `4 3 <` the
true-encoding constant, and `3 3 ==` the true-encoding constant. -/
theorem claim_C2_comparisons_reversed (ap : Approx) (a b : ℚ) (v : VMap) :
    evalLoop ap 9 [numLit a, numLit b, codeCell "<"] v baseKW 0 =
        some (.ok [opNum "<" (if b < a then 1 else 0)] v baseKW 1) ∧
    evalLoop ap 9 [numLit a, numLit b, codeCell "<="] v baseKW 0 =
        some (.ok [opNum "<=" (if b ≤ a then 1 else 0)] v baseKW 1) ∧
    evalLoop ap 9 [numLit a, numLit b, codeCell ">"] v baseKW 0 =
        some (.ok [opNum ">" (if a < b then 1 else 0)] v baseKW 1) ∧
    evalLoop ap 9 [numLit a, numLit b, codeCell ">="] v baseKW 0 =
        some (.ok [opNum ">=" (if a ≤ b then 1 else 0)] v baseKW 1) ∧
    evalLoop ap 9 [numLit a, numLit b, codeCell "=="] v baseKW 0 =
        some (.ok [opNum "==" (if a = b then 1 else 0)] v baseKW 1) ∧
    evalLoop ap 9 [numLit a, numLit b, codeCell "!="] v baseKW 0 =
        some (.ok [opNum "!=" (if a = b then 0 else 1)] v baseKW 1) ∧
    evalLoop ap 9 [numLit 3, numLit 4, codeCell "<"] v baseKW 0 =
        some (.ok [opNum "<" 0] v baseKW 1) ∧
    evalLoop ap 9 [numLit 4, numLit 3, codeCell "<"] v baseKW 0 =
        some (.ok [opNum "<" 1] v baseKW 1) ∧
    evalLoop ap 9 [numLit 3, numLit 3, codeCell "=="] v baseKW 0 =
        some (.ok [opNum "==" 1] v baseKW 1) :=
  ⟨by rw [← cmp3LT a b]; rfl, by rw [← cmp3LE a b]; rfl, by rw [← cmp3GT a b]; rfl,
   by rw [← cmp3GE a b]; rfl, by rw [← cmp3EQ a b]; rfl, by rw [← cmp3NE a b]; rfl,
   rfl, rfl, rfl⟩

/-- C3: the classifier never produces `Assignment` for `x=` — the source
compares the token minus its last character against `"="`, so `x=` is
classified as a `Variable`; entering `1024 x=` and then `x` therefore
ends with the stack `[1024, zero, zero]` (the unbound references collapse
to zero cells), not `[1024]`. -/
theorem claim_C3_assignment_suffix_bug :
    Parse baseKW ["1024", "x="] = ([numLit 1024, varCell "x="], []) ∧
    evalLoop apZ 9 [numLit 1024, varCell "x="] [] baseKW 0 =
        some (.ok [numLit 1024, zeroVar] [] baseKW 2) ∧
    Parse baseKW ["x"] = ([varCell "x"], []) ∧
    evalLoop apZ 9 [numLit 1024, zeroVar, varCell "x"] [] baseKW 2 =
        some (.ok [numLit 1024, zeroVar, zeroVar] [] baseKW 3) ∧
    [numLit 1024, zeroVar, zeroVar] ≠ [numLit 1024] := by
  refine ⟨?_, rfl, rfl, rfl, by simp⟩
  have hp : Parse baseKW ["1024", "x="] =
      ([⟨.Number, "", some (round53 ((1024 : Nat) : ℚ)), [], []⟩, varCell "x="], []) := rfl
  rw [hp, round53_lit1024]
  rfl

/-- C4: a runtime fault while reducing one cell is *not* isolated to that
cell: the deferred `recover` only runs as `Eval` unwinds, so the whole line
aborts and `Eval` returns its zero values; the line `+ 5 6 +` produces the
recovered-panic result (empty stack, cursor 0), even though the remaining
cells `5 6 +` would reduce to `[11]` on their own. -/
theorem claim_C4_recover_aborts_line :
    evalLoop apZ 9 [codeCell "+", numLit 5, numLit 6, codeCell "+"] [] baseKW 0 =
        some (.panicked baseKW) ∧
    evalLoop apZ 9 [numLit 5, numLit 6, codeCell "+"] [] baseKW 0 =
        some (.ok [opNum "+" 11] [] baseKW 1) := by
  refine ⟨rfl, ?_⟩
  have h : evalLoop apZ 9 [numLit 5, numLit 6, codeCell "+"] [] baseKW 0 =
      some (.ok [opNum "+" (round53 ((5 : ℚ) + 6))] [] baseKW 1) := rfl
  rw [h, round53_lit11]

/-- C5 counterexample: evaluating the unbound reference `y` does not leave
the `Variable` cell in place unchanged — the cell is overwritten with the
zero `Var` (a `Number`-typed cell with empty name and nil float). -/
theorem claim_C5_unbound_counterexample :
    evalLoop apZ 9 [varCell "y"] [] baseKW 0 =
      some (.ok [zeroVar] [] baseKW 1) ∧ zeroVar ≠ varCell "y" :=
  ⟨rfl, by simp [zeroVar, varCell]⟩

/-- C5 amended: for an unbound `Variable(name)` cell the evaluator emits a
non-fatal diagnostic and replaces the cell with the zero `Var` (keeping the
stack length and continuing with the next cell); the reference is lost, not
left in place. -/
theorem claim_C5_unbound_zero_var (ap : Approx) (f : Nat) (pre post : List Var)
    (v : VMap) (k : List String) (nm : String) (fq : Option ℚ) (bs : List Nat)
    (cd : List Var) (h : vlookup v nm = none) :
    evalLoop ap (f + 1) (pre ++ ⟨.Variable, nm, fq, bs, cd⟩ :: post) v k (pre.length : Int) =
      evalLoop ap f (pre ++ zeroVar :: post) v k ((pre.length : Int) + 1) := by
  have hl : ((pre.length : Int)) <
      ((pre ++ ⟨.Variable, nm, fq, bs, cd⟩ :: post).length : Int) := by
    simp
  have hstep : stepAt ap (pre ++ ⟨.Variable, nm, fq, bs, cd⟩ :: post) v k (pre.length : Int) =
      .next (pre ++ zeroVar :: post) v k (pre.length : Int) := by
    simp [stepAt, gidx_append, h, set_append_len]
  rw [evalLoop_step ap (f + 1) _ _ _ _ (by omega) hl, hstep]
  norm_num

/-- C5 witness: the amended claim at the one-cell instance `8 y`. -/
theorem claim_C5_unbound_zero_var_witness :
    vlookup [] "y" = none ∧
    evalLoop apZ (0 + 1) ([numLit 8] ++ ⟨.Variable, "y", some 0, [], []⟩ :: []) [] baseKW
        (([numLit 8] : List Var).length : Int) =
      evalLoop apZ 0 ([numLit 8] ++ zeroVar :: []) [] baseKW
        ((([numLit 8] : List Var).length : Int) + 1) :=
  ⟨rfl, claim_C5_unbound_zero_var apZ 0 [numLit 8] [] [] baseKW "y" (some 0) [] [] rfl⟩

/-- C6: the numeric-base-prefix branch is dead code — `getBase` compares
the first byte with the integer 0 (NUL) instead of the character `'0'`, so
the hexadecimal token `0x1F` falls through to the `%f` scan, fails it, is
classified `0` (string), and `Parse` pushes a `Variable` cell instead of
the Number 31. -/
theorem claim_C6_base_prefix_bug :
    getBase "0x1F" = 0 ∧
    Parse baseKW ["0x1F"] = ([varCell "0x1F"], []) ∧
    varCell "0x1F" ≠ numLit 31 :=
  ⟨rfl, rfl, by simp [varCell, numLit]⟩

/-- C7: `dupn` does not duplicate the `n` values immediately before the
count cell: it copies the window `stack[i-2-n : i-2]` (one position short)
and drops the cell at `i-2`, so `1 2 3 2 dupn` leaves `[1 2 1 2]`, not the
claimed `[1 2 3 2 3]`. -/
theorem claim_C7_dupn_bug :
    evalLoop apZ 9 [numLit 1, numLit 2, numLit 3, numLit 2, codeCell "dupn"] [] baseKW 0 =
        some (.ok [numLit 1, numLit 2, numLit 1, numLit 2] [] baseKW 4) ∧
    [numLit 1, numLit 2, numLit 1, numLit 2] ≠
        [numLit 1, numLit 2, numLit 3, numLit 2, numLit 3] :=
  ⟨rfl, by simp⟩

/-- C8: evaluating `cla` from any state — any reduced prefix, any pending
suffix, any variable table — yields an empty stack, an empty variable
table, and cursor 0 (the registry, a global, is untouched). -/
theorem claim_C8_cla_resets (ap : Approx) (f : Nat) (s rest : List Var) (v : VMap)
    (k : List String) (fq : Option ℚ) (bs : List Nat) (cd : List Var)
    (h : "cla" ∈ k) :
    evalLoop ap (f + 1) (s ++ ⟨.Code, "cla", fq, bs, cd⟩ :: rest) v k (s.length : Int) =
      some (.ok [] [] k 0) := by
  have hl : ((s.length : Int)) < ((s ++ ⟨.Code, "cla", fq, bs, cd⟩ :: rest).length : Int) := by
    simp
  have hstep : stepAt ap (s ++ ⟨.Code, "cla", fq, bs, cd⟩ :: rest) v k (s.length : Int) =
      .next [] [] k 0 := by
    simp [stepAt, gidx_append, h]
  rw [evalLoop_step ap (f + 1) _ _ _ _ (by omega) hl, hstep]
  norm_num
  exact evalLoop_done ap f [] [] k 1 (by simp)

/-- C8 witness: `cla` with a nonempty prior stack, nonempty variable table
and a pending cell after it. -/
theorem claim_C8_cla_resets_witness :
    ("cla" ∈ baseKW) ∧
    evalLoop apZ (0 + 1) ([numLit 5] ++ ⟨.Code, "cla", some 0, [], []⟩ :: [numLit 9])
        [("y", numLit 2)] baseKW (([numLit 5] : List Var).length : Int) =
      some (.ok [] [] baseKW 0) :=
  ⟨by decide,
   claim_C8_cla_resets apZ 0 [numLit 5] [numLit 9] [("y", numLit 2)] baseKW (some 0) [] []
     (by decide)⟩

/-- C9: `depth` overwrites its own cell with a Number equal to the cursor
position `i` at invocation (the length of the already-reduced prefix),
regardless of how many cells follow — not the total stack length — and
consumes no operand. -/
theorem claim_C9_depth_cursor (ap : Approx) (f : Nat) (pre post : List Var)
    (v : VMap) (k : List String) (fq : Option ℚ) (bs : List Nat) (cd : List Var)
    (h : "depth" ∈ k) :
    evalLoop ap (f + 1) (pre ++ ⟨.Code, "depth", fq, bs, cd⟩ :: post) v k (pre.length : Int) =
      evalLoop ap f (pre ++ ⟨.Number, "depth", some (pre.length : ℚ), bs, cd⟩ :: post) v k
        ((pre.length : Int) + 1) := by
  have hl : ((pre.length : Int)) <
      ((pre ++ ⟨.Code, "depth", fq, bs, cd⟩ :: post).length : Int) := by
    simp
  have hstep : stepAt ap (pre ++ ⟨.Code, "depth", fq, bs, cd⟩ :: post) v k (pre.length : Int) =
      .next (pre ++ ⟨.Number, "depth", some (pre.length : ℚ), bs, cd⟩ :: post) v k
        (pre.length : Int) := by
    simp [stepAt, gidx_append, h, List.set_set, set_append_len]
  rw [evalLoop_step ap (f + 1) _ _ _ _ (by omega) hl, hstep]
  norm_num

/-- C9 witness: `depth` at cursor 1 of the stack `7 depth 9` (total length
3) produces the Number 1, not 3. -/
theorem claim_C9_depth_cursor_witness :
    ("depth" ∈ baseKW) ∧
    evalLoop apZ (1 + 1) ([numLit 7] ++ ⟨.Code, "depth", some 0, [], []⟩ :: [numLit 9])
        [] baseKW (([numLit 7] : List Var).length : Int) =
      evalLoop apZ 1 ([numLit 7] ++
          ⟨.Number, "depth", some ((([numLit 7] : List Var).length : Nat) : ℚ), [], []⟩ :: [numLit 9])
        [] baseKW ((([numLit 7] : List Var).length : Int) + 1) :=
  ⟨by decide,
   claim_C9_depth_cursor apZ 1 [numLit 7] [numLit 9] [] baseKW (some 0) [] [] (by decide)⟩

/-- C10: whenever `Eval` completes a line without a runtime fault, the
cursor it returns equals the length of the stack it returns (the source's
single return statement is `return stack, vars, len(stack)`), so the line
ends at a fixed point with no pending cells. -/
theorem claim_C10_cursor_len (ap : Approx) (f : Nat) :
    ∀ (st : List Var) (v : VMap) (k : List String) (i : Int) (stO : List Var)
      (vO : VMap) (kO : List String) (fp : Nat),
      evalLoop ap f st v k i = some (.ok stO vO kO fp) → fp = stO.length := by
  induction f with
  | zero =>
    intro st v k i stO vO kO fp h
    by_cases hl : i < (st.length : Int)
    · simp [evalLoop, hl] at h
    · simp only [evalLoop, if_neg hl, Option.some.injEq] at h
      obtain ⟨h1, h2, h3, h4⟩ := EvalRes.ok.inj h
      subst h1
      omega
  | succ n ih =>
    intro st v k i stO vO kO fp h
    by_cases hl : i < (st.length : Int)
    · rw [show evalLoop ap (n + 1) st v k i =
          match stepAt ap st v k i with
          | .next st2 v2 k2 i2 => evalLoop ap n st2 v2 k2 (i2 + 1)
          | .panicked k2 => some (.panicked k2)
          | .fatal => some .fatal from by simp [evalLoop, hl]] at h
      cases hs : stepAt ap st v k i with
      | next st2 v2 k2 i2 =>
        rw [hs] at h
        exact ih st2 v2 k2 (i2 + 1) stO vO kO fp h
      | panicked k2 => rw [hs] at h; simp at h
      | fatal => rw [hs] at h; simp at h
    · simp only [evalLoop, if_neg hl, Option.some.injEq] at h
      obtain ⟨h1, h2, h3, h4⟩ := EvalRes.ok.inj h
      subst h1
      omega

/-- C10 witness: the completed line `3 4 +` returns cursor 1 and a
one-cell stack. -/
theorem claim_C10_cursor_len_witness :
    (1 : Nat) = ([opNum "+" (round53 ((3 : ℚ) + 4))] : List Var).length :=
  claim_C10_cursor_len apZ 9 [numLit 3, numLit 4, codeCell "+"] [] baseKW 0
    [opNum "+" (round53 ((3 : ℚ) + 4))] [] baseKW 1 rfl
